import Mathlib

/-!
Shallow embedding of `conductr_cli/sandbox_run_jvm.py` (the JVM sandbox
launcher of the conductr CLI) together with proofs about the claims of its
specification.

Conventions of the embedding:
* Python strings are Lean `String`s; most string manipulation is done on
  `List Char` (via `String.toList`), which matches Python's character-wise
  operations.
* Python `int` values are Lean `Int`; the builtin `int(...)` parser is
  modelled by `pyIntL` below (optional surrounding whitespace, optional
  sign, decimal digits; Python's underscore separators are not modelled,
  no claim depends on them).
* Fallible Python code (raised exceptions) is modelled with
  `Except SandboxError`; an uncaught builtin `ValueError` is the
  `SandboxError.valueError` constructor.
* Effectful collaborators (socket bind probe, Bintray downloads, the
  filesystem) are passed in explicitly as data/functions, and the network
  operations performed are returned alongside the result so that claims
  about "no network activity" can be stated.
-/

set_option autoImplicit false

/-- Errors raised by `sandbox_run_jvm.py` (from `conductr_cli.exceptions`),
plus Python builtin errors that the module can let escape
(`ValueError` from `int(...)`, `FileNotFoundError` from `os.listdir`). -/
inductive SandboxError where
  | instanceCountError (image_version : String) (instance_expression : String) (message : String)
  | valueError
  | bindAddressNotFound (setup_instructions : List String)
  | bintrayUnreachable (message : String)
  | sandboxImageNotFound (kind : String) (image_version : String)
  | javaCallError (message : String)
  | javaVersionParseError (raw_output : String)
  | javaUnsupportedVendorError (vendor : String)
  | javaUnsupportedVersionError (version : String)
  | fileNotFoundError (name : String)
deriving DecidableEq

/-! ## Decimal digits and the Python `int(...)` / `str(...)` builtins -/

/-- The decimal digit characters, as produced by Python's `str` on `0..9`. -/
def digitChar (n : Nat) : Char :=
  match n with
  | 0 => '0' | 1 => '1' | 2 => '2' | 3 => '3' | 4 => '4'
  | 5 => '5' | 6 => '6' | 7 => '7' | 8 => '8' | _ => '9'

/-- Numeric value of a decimal digit character. -/
def digitVal (c : Char) : Nat := c.toNat - 48

/-- Is `c` one of `'0'..'9'`?  (The character class `[0-9]` of the source's
regular expression, and the digits accepted by Python's `int`.) -/
def isPyDigit (c : Char) : Bool := '0' ≤ c && c ≤ '9'

/-- Whitespace stripped by Python's `int(...)` (and `str.strip`). -/
def isPySpace (c : Char) : Bool := c == ' ' || c == '\t' || c == '\n' || c == '\r'

/-- Strip leading and trailing whitespace, as Python's `int(...)` does. -/
def pyStrip (cs : List Char) : List Char :=
  ((cs.dropWhile isPySpace).reverse.dropWhile isPySpace).reverse

/-- Value of a big-endian list of decimal digit characters. -/
def digitsToNat (l : List Char) : Nat := l.foldl (fun acc c => 10 * acc + digitVal c) 0

/-- Model of the Python builtin `int(...)` applied to a string (as a list of
characters): strip whitespace, then an optional sign followed by one or more
decimal digits.  Returns `none` where Python raises `ValueError`. -/
def pyIntL (cs0 : List Char) : Option Int :=
  match pyStrip cs0 with
  | [] => none
  | c :: rest =>
    if c == '-' then
      if !rest.isEmpty && rest.all isPyDigit then some (-(digitsToNat rest : Int)) else none
    else if c == '+' then
      if !rest.isEmpty && rest.all isPyDigit then some ((digitsToNat rest : Int)) else none
    else
      if (c :: rest).all isPyDigit then some ((digitsToNat (c :: rest) : Int)) else none

/-- Little-endian decimal digits of `n`, with structural fuel so that the
kernel can evaluate it (`fuel > n` suffices). -/
def toDigitsRevAux : Nat → Nat → List Char
  | 0, _ => []
  | f + 1, n => if n < 10 then [digitChar n] else digitChar (n % 10) :: toDigitsRevAux f (n / 10)

/-- Model of Python's `str` on a non-negative integer: big-endian decimal
digit characters. -/
def natReprL (n : Nat) : List Char := (toDigitsRevAux (n + 1) n).reverse

/-- Value of a little-endian list of decimal digit characters. -/
def digitsValRev (l : List Char) : Nat :=
  match l with
  | [] => 0
  | c :: t => digitVal c + 10 * digitsValRev t

theorem digitVal_digitChar {n : Nat} (h : n < 10) : digitVal (digitChar n) = n := by
  interval_cases n <;> rfl

theorem isPyDigit_digitChar {n : Nat} (h : n < 10) : isPyDigit (digitChar n) = true := by
  interval_cases n <;> rfl

theorem isPySpace_digitChar {n : Nat} (h : n < 10) : isPySpace (digitChar n) = false := by
  interval_cases n <;> rfl

theorem toDigitsRevAux_spec :
    ∀ fuel n, n < fuel →
      toDigitsRevAux fuel n ≠ [] ∧
      (toDigitsRevAux fuel n).all isPyDigit = true ∧
      digitsValRev (toDigitsRevAux fuel n) = n := by
  intro fuel
  induction fuel with
  | zero => intro n h; omega
  | succ f ih =>
    intro n h
    by_cases h10 : n < 10
    · refine ⟨by simp [toDigitsRevAux, h10], ?_, ?_⟩
      · simp [toDigitsRevAux, h10, List.all_cons, isPyDigit_digitChar h10]
      · simp [toDigitsRevAux, h10, digitsValRev, digitVal_digitChar h10]
    · have hdiv : n / 10 < n := Nat.div_lt_self (by omega) (by omega)
      have hfuel : n / 10 < f := by omega
      obtain ⟨hne, hall, hval⟩ := ih (n / 10) hfuel
      refine ⟨by simp [toDigitsRevAux, h10], ?_, ?_⟩
      · simp only [toDigitsRevAux, if_neg h10, List.all_cons]
        exact by simp [isPyDigit_digitChar (Nat.mod_lt n (by omega)), hall]
      · simp only [toDigitsRevAux, if_neg h10, digitsValRev, hval,
          digitVal_digitChar (Nat.mod_lt n (by omega))]
        omega

theorem natReprL_ne_nil (n : Nat) : natReprL n ≠ [] := by
  have := (toDigitsRevAux_spec (n + 1) n (Nat.lt_succ_self n)).1
  simp only [natReprL]
  intro h
  exact this (by simpa using List.reverse_eq_nil_iff.mp h)

theorem natReprL_all_digits (n : Nat) : (natReprL n).all isPyDigit = true := by
  have := (toDigitsRevAux_spec (n + 1) n (Nat.lt_succ_self n)).2.1
  simp only [natReprL, List.all_eq_true] at *
  intro c hc
  exact this c (by simpa using hc)

theorem digitsToNat_append_singleton (l : List Char) (c : Char) :
    digitsToNat (l ++ [c]) = 10 * digitsToNat l + digitVal c := by
  simp [digitsToNat, List.foldl_append]

theorem digitsToNat_reverse (l : List Char) : digitsToNat l.reverse = digitsValRev l := by
  induction l with
  | nil => rfl
  | cons c t ih =>
    simp [List.reverse_cons, digitsToNat_append_singleton, ih, digitsValRev]
    ring

theorem digitsToNat_natReprL (n : Nat) : digitsToNat (natReprL n) = n := by
  have := (toDigitsRevAux_spec (n + 1) n (Nat.lt_succ_self n)).2.2
  simp [natReprL, digitsToNat_reverse, this]

theorem not_space_of_digit {c : Char} (h : isPyDigit c = true) : isPySpace c = false := by
  simp only [isPyDigit, Bool.and_eq_true, decide_eq_true_eq] at h
  obtain ⟨h0, h9⟩ := h
  simp only [isPySpace, Bool.or_eq_false_iff, beq_eq_false_iff_ne, ne_eq]
  refine ⟨⟨⟨?_, ?_⟩, ?_⟩, ?_⟩ <;> (intro he; subst he; exact absurd h0 (by decide))

theorem pyStrip_of_no_space {cs : List Char} (h : ∀ c ∈ cs, isPySpace c = false) :
    pyStrip cs = cs := by
  have h1 : cs.dropWhile isPySpace = cs := by
    cases cs with
    | nil => rfl
    | cons c t => simp [List.dropWhile_cons, h c (by simp)]
  rw [pyStrip, h1]
  have h2 : cs.reverse.dropWhile isPySpace = cs.reverse := by
    cases hr : cs.reverse with
    | nil => rfl
    | cons c t =>
      have hc : c ∈ cs := by
        have : c ∈ cs.reverse := by rw [hr]; simp
        simpa using this
      simp [List.dropWhile_cons, h c hc]
  rw [h2, List.reverse_reverse]

theorem pyIntL_natReprL (n : Nat) : pyIntL (natReprL n) = some ((n : Int)) := by
  have hall := natReprL_all_digits n
  have hne := natReprL_ne_nil n
  have hstrip : pyStrip (natReprL n) = natReprL n := by
    apply pyStrip_of_no_space
    intro c hc
    exact not_space_of_digit ((List.all_eq_true.mp hall) c hc)
  obtain ⟨c, rest, hcr⟩ := List.exists_cons_of_ne_nil hne
  have hcd : isPyDigit c = true := (List.all_eq_true.mp hall) c (by rw [hcr]; simp)
  have hcm : (c == '-') = false := by
    apply beq_eq_false_iff_ne.mpr; intro he; subst he; exact absurd hcd (by decide)
  have hcp : (c == '+') = false := by
    apply beq_eq_false_iff_ne.mpr; intro he; subst he; exact absurd hcd (by decide)
  rw [show pyIntL (natReprL n) =
      (match pyStrip (natReprL n) with
       | [] => none
       | c :: rest =>
         if c == '-' then
           if !rest.isEmpty && rest.all isPyDigit then some (-(digitsToNat rest : Int)) else none
         else if c == '+' then
           if !rest.isEmpty && rest.all isPyDigit then some ((digitsToNat rest : Int)) else none
         else
           if (c :: rest).all isPyDigit then some ((digitsToNat (c :: rest) : Int)) else none)
      from rfl]
  rw [hstrip, hcr]
  simp only [hcm, hcp, Bool.false_eq_true, if_false]
  rw [← hcr, hall, if_pos rfl, digitsToNat_natReprL]

theorem colon_not_mem_natReprL (n : Nat) : ':' ∉ natReprL n := by
  intro hmem
  have := (List.all_eq_true.mp (natReprL_all_digits n)) ':' hmem
  exact absurd this (by decide)

theorem pyIntL_natReprL_colon (A B : Nat) :
    pyIntL (natReprL A ++ ':' :: natReprL B) = none := by
  set cs := natReprL A ++ ':' :: natReprL B with hcs
  have hdig : ∀ c ∈ cs, isPyDigit c = true ∨ c = ':' := by
    intro c hc
    rw [hcs] at hc
    rcases List.mem_append.mp hc with h | h
    · exact Or.inl ((List.all_eq_true.mp (natReprL_all_digits A)) c h)
    · rcases List.mem_cons.mp h with h | h
      · exact Or.inr h
      · exact Or.inl ((List.all_eq_true.mp (natReprL_all_digits B)) c h)
  have hstrip : pyStrip cs = cs := by
    apply pyStrip_of_no_space
    intro c hc
    rcases hdig c hc with h | h
    · exact not_space_of_digit h
    · subst h; decide
  obtain ⟨c, rest, hcr⟩ := List.exists_cons_of_ne_nil
    (show cs ≠ [] by rw [hcs]; simp [natReprL_ne_nil A])
  have hcd : isPyDigit c = true := by
    have hcmem : c ∈ cs := by rw [hcr]; simp
    have hhead : c ∈ natReprL A := by
      obtain ⟨d, r, hd⟩ := List.exists_cons_of_ne_nil (natReprL_ne_nil A)
      rw [hcs, hd] at hcr
      simp only [List.cons_append, List.cons.injEq] at hcr
      rw [hd, hcr.1]; simp
    exact (List.all_eq_true.mp (natReprL_all_digits A)) c hhead
  have hcm : (c == '-') = false := by
    apply beq_eq_false_iff_ne.mpr; intro he; subst he; exact absurd hcd (by decide)
  have hcp : (c == '+') = false := by
    apply beq_eq_false_iff_ne.mpr; intro he; subst he; exact absurd hcd (by decide)
  have hnotall : (c :: rest).all isPyDigit = false := by
    rw [← hcr]
    apply List.all_eq_false.mpr
    refine ⟨':', by rw [hcs]; simp, by decide⟩
  rw [show pyIntL cs =
      (match pyStrip cs with
       | [] => none
       | c :: rest =>
         if c == '-' then
           if !rest.isEmpty && rest.all isPyDigit then some (-(digitsToNat rest : Int)) else none
         else if c == '+' then
           if !rest.isEmpty && rest.all isPyDigit then some ((digitsToNat rest : Int)) else none
         else
           if (c :: rest).all isPyDigit then some ((digitsToNat (c :: rest) : Int)) else none)
      from rfl]
  rw [hstrip, hcr]
  simp only [hcm, hcp, hnotall, Bool.false_eq_true, if_false]

/-! ## Python `str.split` and the `re.search` of the instance expression -/

/-- Model of Python's `str.split(sep)` for a single-character separator:
splits on every occurrence, keeping empty parts (never returns `[]`). -/
def pySplit (sep : Char) : List Char → List (List Char)
  | [] => [[]]
  | c :: rest =>
    if c == sep then [] :: pySplit sep rest
    else
      match pySplit sep rest with
      | [] => [[c]]
      | p :: ps => (c :: p) :: ps

theorem pySplit_ne_nil (sep : Char) (cs : List Char) : pySplit sep cs ≠ [] := by
  cases cs with
  | nil => simp [pySplit]
  | cons c rest =>
    by_cases h : (c == sep) = true
    · simp [pySplit, h]
    · simp only [pySplit, h, Bool.false_eq_true, if_false]
      cases pySplit sep rest <;> simp

theorem pySplit_no_sep {sep : Char} {cs : List Char} (h : sep ∉ cs) :
    pySplit sep cs = [cs] := by
  induction cs with
  | nil => rfl
  | cons c rest ih =>
    have hc : (c == sep) = false := by
      apply beq_eq_false_iff_ne.mpr; intro he; exact h (by rw [he]; simp)
    have ihr : pySplit sep rest = [rest] := ih (fun hm => h (List.mem_cons_of_mem c hm))
    simp [pySplit, hc, ihr]

theorem pySplit_append_sep {sep : Char} {xs : List Char} (ys : List Char) (h : sep ∉ xs) :
    pySplit sep (xs ++ sep :: ys) = xs :: pySplit sep ys := by
  induction xs with
  | nil => simp [pySplit]
  | cons x xs ih =>
    have hx : (x == sep) = false := by
      apply beq_eq_false_iff_ne.mpr; intro he; exact h (by rw [he]; simp)
    have ihr := ih (fun hm => h (List.mem_cons_of_mem x hm))
    simp only [List.cons_append, pySplit, hx, Bool.false_eq_true, if_false]
    rw [show xs.append (sep :: ys) = xs ++ sep :: ys from rfl, ihr]

/-- Does `re.search('[0-9]+\\:[0-9]+', s)` find a match?  An unanchored
search for that pattern succeeds exactly when some digit character is
immediately followed by `':'` and another digit. -/
def hasDigitColonDigit : List Char → Bool
  | a :: b :: c :: rest => (isPyDigit a && b == ':' && isPyDigit c) || hasDigitColonDigit (b :: c :: rest)
  | _ => false

theorem hasDigitColonDigit_cons {l : List Char} (x : Char)
    (h : hasDigitColonDigit l = true) : hasDigitColonDigit (x :: l) = true := by
  match l with
  | [] => simp [hasDigitColonDigit] at h
  | [b] => simp [hasDigitColonDigit] at h
  | b :: c :: rest => simp [hasDigitColonDigit, h]

theorem hasDigitColonDigit_mid {d c : Char} (hd : isPyDigit d = true) (hc : isPyDigit c = true)
    (xs ys : List Char) : hasDigitColonDigit (xs ++ d :: ':' :: c :: ys) = true := by
  induction xs with
  | nil => simp [hasDigitColonDigit, hd, hc]
  | cons x xs ih => exact hasDigitColonDigit_cons x ih

/-! ## `instance_count` (sandbox_run_jvm.py lines 110-136) -/

/-- The human-readable requirement attached to `InstanceCountError`. -/
def INSTANCE_COUNT_ERROR_MESSAGE : String :=
  "Number of containers must be an integer or a valid instance expression, i.e. 2:3 which translates to 2 core instances and 3 agent instances"

/-- Embedding of `instance_count(image_version, instance_expression)`:
try `int(instance_expression)`; on `ValueError`, search for the pattern
`[0-9]+\\:[0-9]+`; on a match, split on `':'` and parse the first and last
parts with `int` (whose `ValueError` is uncaught in the source); otherwise
raise `InstanceCountError`. -/
def instance_count (image_version instance_expression : String) :
    Except SandboxError (Int × Int) :=
  match pyIntL instance_expression.toList with
  | some nr_of_instances => .ok (nr_of_instances, nr_of_instances)
  | none =>
    if hasDigitColonDigit instance_expression.toList then
      match pyIntL ((pySplit ':' instance_expression.toList).headD []),
            pyIntL ((pySplit ':' instance_expression.toList).getLastD []) with
      | some nr_of_core_instances, some nr_of_agent_instances =>
        .ok (nr_of_core_instances, nr_of_agent_instances)
      | _, _ => .error .valueError
    else
      .error (.instanceCountError image_version instance_expression INSTANCE_COUNT_ERROR_MESSAGE)

theorem toList_mk (l : List Char) : (String.mk l).toList = l := rfl

/-- C2: for every non-negative integer N, parsing the instance expression
`str(N)` returns `(core = N, agent = N)`, and for all non-negative integers
A and B, parsing the string `"A:B"` returns `(core = A, agent = B)`. -/
theorem instance_count_int_and_pair (v : String) (N A B : Nat) :
    instance_count v (String.mk (natReprL N)) = .ok ((N : Int), (N : Int)) ∧
    instance_count v (String.mk (natReprL A ++ ':' :: natReprL B)) = .ok ((A : Int), (B : Int)) := by
  constructor
  · simp [instance_count, toList_mk, pyIntL_natReprL N]
  · obtain ⟨init, d, hA⟩ :=
      (List.eq_nil_or_concat (natReprL A)).resolve_left (natReprL_ne_nil A)
    obtain ⟨c, t, hB⟩ := List.exists_cons_of_ne_nil (natReprL_ne_nil B)
    have hd : isPyDigit d = true := by
      apply (List.all_eq_true.mp (natReprL_all_digits A)) d
      rw [hA]; simp [List.concat_eq_append]
    have hc : isPyDigit c = true := by
      apply (List.all_eq_true.mp (natReprL_all_digits B)) c
      rw [hB]; simp
    have hsearch : hasDigitColonDigit (natReprL A ++ ':' :: natReprL B) = true := by
      rw [hA, hB, List.concat_eq_append]
      rw [show (init ++ [d]) ++ ':' :: c :: t = init ++ d :: ':' :: c :: t by simp]
      exact hasDigitColonDigit_mid hd hc init t
    have hsplit : pySplit ':' (natReprL A ++ ':' :: natReprL B) =
        [natReprL A, natReprL B] := by
      rw [pySplit_append_sep (natReprL B) (colon_not_mem_natReprL A),
        pySplit_no_sep (colon_not_mem_natReprL B)]
    simp [instance_count, toList_mk, pyIntL_natReprL_colon A B, hsearch, hsplit,
      List.getLastD, pyIntL_natReprL A, pyIntL_natReprL B]

/-- C3 (amended): parsing fails with `InstanceCountError` carrying the
offending expression exactly when the expression is not parseable by the
Python `int` builtin AND contains no substring matching `[0-9]+:[0-9]+`.
In particular `"1:2:3"` is accepted (the unanchored `re.search` matches),
and `"a1:2"` escapes with an uncaught `ValueError`, not an
`InstanceCountError`. -/
theorem instance_count_error_iff (v s : String) :
    (∃ m, instance_count v s = .error (.instanceCountError v s m)) ↔
    (pyIntL s.toList = none ∧ hasDigitColonDigit s.toList = false) := by
  constructor
  · rintro ⟨m, hm⟩
    unfold instance_count at hm
    split at hm
    · exact absurd hm (by simp)
    next heq =>
      refine ⟨heq, ?_⟩
      by_cases hd : hasDigitColonDigit s.toList = true
      · rw [if_pos hd] at hm
        exfalso
        split at hm
        · exact absurd hm (by simp)
        · exact absurd hm (by simp)
      · simpa using hd
  · rintro ⟨h1, h2⟩
    refine ⟨INSTANCE_COUNT_ERROR_MESSAGE, ?_⟩
    simp only [instance_count, h1, h2, Bool.false_eq_true, if_false]

/-- C3 counterexample: the expression `"1:2:3"` has more than one colon,
yet `instance_count` accepts it and returns core = 1, agent = 3 (the
unanchored regex search finds `"1:2"`; the split takes the first and last
parts); and `"a1:2"` (non-integer characters around a colon pair) raises
an uncaught `ValueError`, not an `InstanceCountError`. -/
theorem instance_count_extra_colons_accepted :
    instance_count "2.0.0" "1:2:3" = .ok (1, 3) ∧
    (∀ m, instance_count "2.0.0" "1:2:3" ≠ .error (.instanceCountError "2.0.0" "1:2:3" m)) ∧
    instance_count "2.0.0" "a1:2" = .error .valueError := by
  refine ⟨rfl, ?_, rfl⟩
  intro m h
  rw [show instance_count "2.0.0" "1:2:3" = .ok (1, 3) from rfl] at h
  exact Except.noConfusion h

/-! ## `find_bind_addrs` (sandbox_run_jvm.py lines 172-211) -/

/-- The port used for testing if an address can be bound (line 21). -/
def BIND_TEST_PORT : Nat := 19991

/-- The port used by ConductR Akka remoting (line 22). -/
def CONDUCTR_AKKA_REMOTING_PORT : Nat := 9004

/-- Only one instance of ConductR HAProxy per machine (line 23). -/
def NR_OF_PROXY_INSTANCE : Nat := 1

/-- Modelled from the spec: `host.addr_alias_setup_instructions(addrs, netmask)`
is an external collaborator (not under src/) producing one copy-pasteable
interface-alias command per address plus the netmask, in the shape shown in
the source's own docstring (`sudo ifconfig lo0 alias <addr> <netmask>`).
Addresses are modelled as natural numbers (IPv4 addresses are 32-bit values
enumerated in ascending order by the CIDR host enumeration). -/
def addr_alias_setup_instructions (addrs : List Nat) (netmask : String) : List String :=
  addrs.map (fun a => "sudo ifconfig lo0 alias " ++ String.mk (natReprL a) ++ " " ++ netmask)

/-- The probe loop of `find_bind_addrs` (lines 194-203): probe each host
address, appending to `addrs_to_bind` or `addrs_unavailable`, and break
as soon as `len(addrs_to_bind) >= nr_of_addrs` (the break condition is
checked after every probe, whether it succeeded or not).  Returns
`(addrs_to_bind, addrs_unavailable, unprobed_remainder)`. -/
def bindScan (can_bind : Nat → Nat → Bool) (nr_of_addrs : Nat) :
    List Nat → List Nat → List Nat → List Nat × List Nat × List Nat
  | [], addrs_to_bind, addrs_unavailable => (addrs_to_bind, addrs_unavailable, [])
  | ip_addr :: hosts_rest, addrs_to_bind, addrs_unavailable =>
    if can_bind ip_addr BIND_TEST_PORT then
      if nr_of_addrs ≤ (addrs_to_bind ++ [ip_addr]).length then
        (addrs_to_bind ++ [ip_addr], addrs_unavailable, hosts_rest)
      else
        bindScan can_bind nr_of_addrs hosts_rest (addrs_to_bind ++ [ip_addr]) addrs_unavailable
    else
      if nr_of_addrs ≤ addrs_to_bind.length then
        (addrs_to_bind, addrs_unavailable ++ [ip_addr], hosts_rest)
      else
        bindScan can_bind nr_of_addrs hosts_rest addrs_to_bind (addrs_unavailable ++ [ip_addr])

/-- Embedding of `find_bind_addrs(nr_of_addrs, addr_range)`: the CIDR range
is represented by its ascending host enumeration `addr_range_hosts` and its
netmask; the socket probe `host.can_bind` is the `can_bind` parameter. -/
def find_bind_addrs (can_bind : Nat → Nat → Bool) (nr_of_addrs : Nat)
    (addr_range_hosts : List Nat) (netmask : String) : Except SandboxError (List Nat) :=
  if (bindScan can_bind nr_of_addrs addr_range_hosts [] []).1.length < nr_of_addrs then
    .error (.bindAddressNotFound (addr_alias_setup_instructions
      ((bindScan can_bind nr_of_addrs addr_range_hosts [] []).2.1.take
        (nr_of_addrs - (bindScan can_bind nr_of_addrs addr_range_hosts [] []).1.length))
      netmask))
  else
    .ok (bindScan can_bind nr_of_addrs addr_range_hosts [] []).1

theorem bindScan_spec (can_bind : Nat → Nat → Bool) (k : Nat) :
    ∀ (hosts acc1 acc2 : List Nat), acc1.length < k →
      ∃ probed,
        hosts = probed ++ (bindScan can_bind k hosts acc1 acc2).2.2 ∧
        (bindScan can_bind k hosts acc1 acc2).1
          = acc1 ++ probed.filter (fun a => can_bind a BIND_TEST_PORT) ∧
        (bindScan can_bind k hosts acc1 acc2).2.1
          = acc2 ++ probed.filter (fun a => !can_bind a BIND_TEST_PORT) ∧
        (((bindScan can_bind k hosts acc1 acc2).1.length < k ∧
          (bindScan can_bind k hosts acc1 acc2).2.2 = []) ∨
         ((bindScan can_bind k hosts acc1 acc2).1.length = k ∧
          ∃ p a, probed = p ++ [a] ∧ can_bind a BIND_TEST_PORT = true)) := by
  intro hosts
  induction hosts with
  | nil =>
    intro acc1 acc2 hlt
    exact ⟨[], by simp [bindScan], by simp [bindScan], by simp [bindScan],
      Or.inl ⟨by simpa [bindScan] using hlt, by simp [bindScan]⟩⟩
  | cons ip rest ih =>
    intro acc1 acc2 hlt
    by_cases hb : can_bind ip BIND_TEST_PORT = true
    · by_cases hk : k ≤ (acc1 ++ [ip]).length
      · have hres : bindScan can_bind k (ip :: rest) acc1 acc2
            = (acc1 ++ [ip], acc2, rest) := by
          simp only [bindScan, hb, if_true, hk, if_pos]
        refine ⟨[ip], ?_, ?_, ?_, Or.inr ⟨?_, [], ip, rfl, hb⟩⟩
        · simp [hres]
        · simp [hres, List.filter, hb]
        · simp [hres, List.filter, hb]
        · rw [hres]
          simp only [List.length_append, List.length_cons, List.length_nil] at hk ⊢
          omega
      · have hres : bindScan can_bind k (ip :: rest) acc1 acc2
            = bindScan can_bind k rest (acc1 ++ [ip]) acc2 := by
          simp only [bindScan, hb, if_true, hk, if_neg, if_false]
        have hlt' : (acc1 ++ [ip]).length < k := by
          simp only [List.length_append, List.length_cons, List.length_nil] at hk ⊢
          omega
        obtain ⟨probed, hh, h1, h2, hdisj⟩ := ih (acc1 ++ [ip]) acc2 hlt'
        refine ⟨ip :: probed, ?_, ?_, ?_, ?_⟩
        · rw [hres]; simpa using hh
        · rw [hres, h1]; simp [List.filter, hb]
        · rw [hres, h2]; simp [List.filter, hb]
        · rw [hres]
          rcases hdisj with h | ⟨hlen, p, a, hpa, ha⟩
          · exact Or.inl h
          · exact Or.inr ⟨hlen, ip :: p, a, by rw [hpa]; rfl, ha⟩
    · have hb' : can_bind ip BIND_TEST_PORT = false := by
        cases hcb : can_bind ip BIND_TEST_PORT
        · rfl
        · exact absurd hcb hb
      have hk : ¬(k ≤ acc1.length) := by omega
      have hres : bindScan can_bind k (ip :: rest) acc1 acc2
          = bindScan can_bind k rest acc1 (acc2 ++ [ip]) := by
        simp only [bindScan, hb', Bool.false_eq_true, if_false, hk, if_neg]
      obtain ⟨probed, hh, h1, h2, hdisj⟩ := ih acc1 (acc2 ++ [ip]) hlt
      refine ⟨ip :: probed, ?_, ?_, ?_, ?_⟩
      · rw [hres]; simpa using hh
      · rw [hres, h1]; simp [List.filter, hb']
      · rw [hres, h2]; simp [List.filter, hb']
      · rw [hres]
        rcases hdisj with h | ⟨hlen, p, a, hpa, ha⟩
        · exact Or.inl h
        · exact Or.inr ⟨hlen, ip :: p, a, by rw [hpa]; rfl, ha⟩

/-- C4 (amended): for every count k >= 1, when allocation succeeds it
returns exactly k addresses taken from the range's host enumeration in
order, each individually verified bindable by a probe on the test port,
and probing stops at the k-th bindable address: the probed prefix's
bindable addresses are exactly the result, its last probed address is
bindable, and the remaining hosts are never probed.  (For k = 0 the
source still probes the first host and can return one address, see the
counterexample.) -/
theorem find_bind_addrs_ok (can_bind : Nat → Nat → Bool) (k : Nat)
    (hosts : List Nat) (netmask : String) (addrs : List Nat)
    (hk : 1 ≤ k) (h : find_bind_addrs can_bind k hosts netmask = .ok addrs) :
    addrs.length = k ∧ addrs.Sublist hosts ∧
    (∀ a ∈ addrs, can_bind a BIND_TEST_PORT = true) ∧
    ∃ probed rest, hosts = probed ++ rest ∧
      addrs = probed.filter (fun a => can_bind a BIND_TEST_PORT) ∧
      ∃ p a, probed = p ++ [a] ∧ can_bind a BIND_TEST_PORT = true := by
  have h0 : ([] : List Nat).length < k := by simpa using hk
  obtain ⟨probed, hhosts, h1, h2, hdisj⟩ := bindScan_spec can_bind k hosts [] [] h0
  unfold find_bind_addrs at h
  split at h
  · exact absurd h (by simp)
  next hlen =>
    have haddrs : addrs = (bindScan can_bind k hosts [] []).1 := by
      injection h with h'
      exact h'.symm
    rcases hdisj with ⟨hlt, _⟩ | ⟨hlenk, p, a, hpa, ha⟩
    · exact absurd hlt hlen
    · have hfilter : addrs = probed.filter (fun a => can_bind a BIND_TEST_PORT) := by
        rw [haddrs, h1]; simp
      refine ⟨by rw [haddrs]; exact hlenk, ?_, ?_, probed,
        (bindScan can_bind k hosts [] []).2.2, hhosts, hfilter, p, a, hpa, ha⟩
      · rw [hfilter, hhosts]
        exact (List.filter_sublist probed).trans (List.sublist_append_left probed _)
      · intro x hx
        rw [hfilter] at hx
        exact (List.mem_filter.mp hx).2

/-- C4 witness: with one required address, hosts `[1, 2, 3]` and a probe
accepting even addresses, allocation returns `[2]` and the conclusion of
`find_bind_addrs_ok` holds at this input. -/
theorem find_bind_addrs_ok_witness :
    ([2] : List Nat).length = 1 ∧ ([2] : List Nat).Sublist [1, 2, 3] ∧
    (∀ a ∈ ([2] : List Nat), (fun a (_ : Nat) => a % 2 == 0) a BIND_TEST_PORT = true) ∧
    ∃ probed rest, ([1, 2, 3] : List Nat) = probed ++ rest ∧
      [2] = probed.filter (fun a => (fun a (_ : Nat) => a % 2 == 0) a BIND_TEST_PORT) ∧
      ∃ p a, probed = p ++ [a] ∧ (fun a (_ : Nat) => a % 2 == 0) a BIND_TEST_PORT = true :=
  find_bind_addrs_ok (fun a _ => a % 2 == 0) 1 [1, 2, 3] "255.255.255.0" [2]
    (by decide) (by rfl)

/-- C4 counterexample: with required count k = 0 and a bindable first host,
`find_bind_addrs` probes that host anyway (the break check runs only after
a probe) and returns one address, not "exactly k = 0 addresses". -/
theorem find_bind_addrs_count_zero :
    find_bind_addrs (fun _ _ => true) 0 [5] "255.255.255.0" = .ok [5] ∧
    ([5] : List Nat).length ≠ 0 := ⟨rfl, by decide⟩

/-- C5 (amended): on failure, the remediation instruction list built from
the first rejected addresses plus the netmask has length
`min(shortfall, number of rejected addresses)` — it equals the shortfall
exactly when at least that many addresses were probed and rejected, and is
shorter when the range was exhausted with fewer rejected addresses. -/
theorem find_bind_addrs_shortfall (can_bind : Nat → Nat → Bool) (k : Nat)
    (hosts : List Nat) (netmask : String) (instrs : List String)
    (h : find_bind_addrs can_bind k hosts netmask = .error (.bindAddressNotFound instrs)) :
    instrs.length =
      min (k - (hosts.filter (fun a => can_bind a BIND_TEST_PORT)).length)
        ((hosts.filter (fun a => !can_bind a BIND_TEST_PORT)).length) := by
  rcases Nat.eq_zero_or_pos k with hk0 | hkpos
  · exfalso
    subst hk0
    unfold find_bind_addrs at h
    rw [if_neg (by omega)] at h
    exact absurd h (by simp)
  · have h0 : ([] : List Nat).length < k := by simpa using hkpos
    obtain ⟨probed, hhosts, h1, h2, hdisj⟩ := bindScan_spec can_bind k hosts [] [] h0
    unfold find_bind_addrs at h
    split at h
    next hlt =>
      have hinstrs : instrs = addr_alias_setup_instructions
          ((bindScan can_bind k hosts [] []).2.1.take
            (k - (bindScan can_bind k hosts [] []).1.length)) netmask := by
        injection h with h'
        cases h'
        rfl
      rcases hdisj with ⟨_, hrest⟩ | ⟨hlenk, _⟩
      · have hprobed : probed = hosts := by rw [hhosts, hrest, List.append_nil]
        subst hprobed
        rw [hinstrs, addr_alias_setup_instructions, List.length_map, List.length_take,
          h1, h2]
        simp
      · omega
    · exact absurd h (by simp)

/-- C5 witness: requiring 2 addresses from the single-host range `[7]`
with a probe rejecting everything: one address is rejected, the shortfall
is 2, and the remediation list has length `min 2 1 = 1`. -/
theorem find_bind_addrs_shortfall_witness :
    (addr_alias_setup_instructions [7] "255.255.255.0").length =
      min (2 - (([7] : List Nat).filter
            (fun a => (fun (_ _ : Nat) => false) a BIND_TEST_PORT)).length)
        ((([7] : List Nat).filter
            (fun a => !(fun (_ _ : Nat) => false) a BIND_TEST_PORT)).length) :=
  find_bind_addrs_shortfall (fun _ _ => false) 2 [7] "255.255.255.0"
    (addr_alias_setup_instructions [7] "255.255.255.0") rfl

/-- C5 counterexample: requiring 1 address from an empty host range, no
address is ever rejected, so the instruction list is empty — its length 0
is not the shortfall 1 - 0 = 1 that the claim requires. -/
theorem find_bind_addrs_empty_range :
    find_bind_addrs (fun _ _ => false) 1 [] "255.255.255.0" =
      .error (.bindAddressNotFound []) ∧ ([] : List String).length ≠ 1 - 0 :=
  ⟨rfl, by decide⟩

/-! ## `start_core_instances` / `start_agent_instances` (lines 325-394) -/

/-- Command line built for the core instance at index `idx` (lines 341-350):
the conductr executable and its bind address, plus — only when `idx > 0` —
a `--seed` flag pointing at `(bind_addrs[0], CONDUCTR_AKKA_REMOTING_PORT)`. -/
def core_instance_command (core_extracted_dir : String) (bind_addrs : List String)
    (idx : Nat) (bind_addr : String) : List String :=
  if idx > 0 then
    [core_extracted_dir ++ "/bin/conductr", "-Dconductr.ip=" ++ bind_addr] ++
      ["--seed", bind_addrs.headD "" ++ ":" ++ String.mk (natReprL CONDUCTR_AKKA_REMOTING_PORT)]
  else
    [core_extracted_dir ++ "/bin/conductr", "-Dconductr.ip=" ++ bind_addr]

/-- The `enumerate(bind_addrs)` loop of `start_core_instances`, collecting
the command line of each spawned core process in instance-index order. -/
def start_core_commands_aux (core_extracted_dir : String) (bind_addrs : List String) :
    Nat → List String → List (List String)
  | _, [] => []
  | idx, bind_addr :: rest =>
    core_instance_command core_extracted_dir bind_addrs idx bind_addr ::
      start_core_commands_aux core_extracted_dir bind_addrs (idx + 1) rest

/-- Embedding of `start_core_instances` restricted to its observable
command lines (process spawning itself is an external effect). -/
def start_core_commands (core_extracted_dir : String) (bind_addrs : List String) :
    List (List String) :=
  start_core_commands_aux core_extracted_dir bind_addrs 0 bind_addrs

/-- Command line built for the agent instance at every index (lines
379-385): the conductr-agent executable, its bind address, and a
`--core-node` flag pointing at `(its own bind address, remoting port)`. -/
def agent_instance_command (agent_extracted_dir : String) (bind_addr : String) : List String :=
  [agent_extracted_dir ++ "/bin/conductr-agent",
   "-Dconductr.agent.ip=" ++ bind_addr,
   "--core-node",
   bind_addr ++ ":" ++ String.mk (natReprL CONDUCTR_AKKA_REMOTING_PORT)]

/-- Embedding of `start_agent_instances` restricted to its observable
command lines. -/
def start_agent_commands (agent_extracted_dir : String) (bind_addrs : List String) :
    List (List String) :=
  bind_addrs.map (agent_instance_command agent_extracted_dir)

theorem start_core_commands_aux_getD (d : String) (bas : List String) :
    ∀ (l : List String) (idx i : Nat), i < l.length →
      (start_core_commands_aux d bas idx l).getD i []
        = core_instance_command d bas (idx + i) (l.getD i "") := by
  intro l
  induction l with
  | nil => intro idx i h; simp at h
  | cons x xs ih =>
    intro idx i h
    cases i with
    | zero => simp [start_core_commands_aux]
    | succ j =>
      have hj := ih (idx + 1) j (by simpa using h)
      simp only [start_core_commands_aux, List.getD_cons_succ, hj]
      rw [show idx + 1 + j = idx + (j + 1) by omega]

theorem getD_map_of_lt (f : String → List String) :
    ∀ (l : List String) (i : Nat), i < l.length →
      (l.map f).getD i [] = f (l.getD i "") := by
  intro l
  induction l with
  | nil => intro i h; simp at h
  | cons x xs ih =>
    intro i h
    cases i with
    | zero => simp
    | succ j => simpa using ih j (by simpa using h)

theorem append_ne_seed_left (s : String) : s ++ "/bin/conductr" ≠ "--seed" := by
  intro h
  have hlen := congrArg String.length h
  rw [String.length_append, show ("/bin/conductr" : String).length = 13 from rfl,
    show ("--seed" : String).length = 6 from rfl] at hlen
  omega

theorem append_ne_seed_right (s : String) : "-Dconductr.ip=" ++ s ≠ "--seed" := by
  intro h
  have hlen := congrArg String.length h
  rw [String.length_append, show ("-Dconductr.ip=" : String).length = 14 from rfl,
    show ("--seed" : String).length = 6 from rfl] at hlen
  omega

/-- C1: for every list of bind addresses, the core instance at index 0 is
launched with no `--seed` flag, every core instance at index i > 0 is
launched with a seed flag pointing at `(bind_addrs[0],
CONDUCTR_AKKA_REMOTING_PORT)`, and every agent instance (index 0 included)
is launched with a `--core-node` flag pointing at its own bind address and
the remoting port. -/
theorem start_instances_flags (core_dir agent_dir : String) (bind_addrs : List String)
    (i : Nat) (hi : i < bind_addrs.length) :
    (start_core_commands core_dir bind_addrs).getD i []
      = (if i > 0 then
          [core_dir ++ "/bin/conductr", "-Dconductr.ip=" ++ bind_addrs.getD i "",
           "--seed",
           bind_addrs.headD "" ++ ":" ++ String.mk (natReprL CONDUCTR_AKKA_REMOTING_PORT)]
         else
          [core_dir ++ "/bin/conductr", "-Dconductr.ip=" ++ bind_addrs.getD i ""]) ∧
    "--seed" ∉ (start_core_commands core_dir bind_addrs).getD 0 [] ∧
    (start_agent_commands agent_dir bind_addrs).getD i []
      = [agent_dir ++ "/bin/conductr-agent",
         "-Dconductr.agent.ip=" ++ bind_addrs.getD i "",
         "--core-node",
         bind_addrs.getD i "" ++ ":" ++ String.mk (natReprL CONDUCTR_AKKA_REMOTING_PORT)] := by
  have hcore := start_core_commands_aux_getD core_dir bind_addrs bind_addrs 0 i hi
  have hlen0 : 0 < bind_addrs.length := Nat.lt_of_le_of_lt (Nat.zero_le i) hi
  have hcore0 := start_core_commands_aux_getD core_dir bind_addrs bind_addrs 0 0 hlen0
  refine ⟨?_, ?_, ?_⟩
  · rw [start_core_commands, hcore]
    simp only [Nat.zero_add, core_instance_command]
    by_cases hpos : i > 0
    · rw [if_pos hpos, if_pos hpos]
      rfl
    · rw [if_neg hpos, if_neg hpos]
  · rw [start_core_commands, hcore0]
    simp only [Nat.zero_add, core_instance_command, if_neg (by omega : ¬(0 : Nat) > 0)]
    intro hmem
    rcases List.mem_cons.mp hmem with h | h
    · exact append_ne_seed_left core_dir h.symm
    · rcases List.mem_cons.mp h with h' | h'
      · exact append_ne_seed_right (bind_addrs.getD 0 "") h'.symm
      · simp at h'
  · rw [start_agent_commands, getD_map_of_lt (agent_instance_command agent_dir) bind_addrs i hi]
    rfl

/-- C1 witness: with two bind addresses, instance 1's core command carries
the seed flag pointing at address 0, instance 0's core command has no seed
flag, and agent instance 1 points its core-node flag at its own address. -/
theorem start_instances_flags_witness :
    (start_core_commands "c" ["10.0.0.1", "10.0.0.2"]).getD 1 []
      = (if 1 > 0 then
          ["c" ++ "/bin/conductr",
           "-Dconductr.ip=" ++ (["10.0.0.1", "10.0.0.2"] : List String).getD 1 "",
           "--seed",
           (["10.0.0.1", "10.0.0.2"] : List String).headD "" ++ ":" ++
             String.mk (natReprL CONDUCTR_AKKA_REMOTING_PORT)]
         else
          ["c" ++ "/bin/conductr",
           "-Dconductr.ip=" ++ (["10.0.0.1", "10.0.0.2"] : List String).getD 1 ""]) ∧
    "--seed" ∉ (start_core_commands "c" ["10.0.0.1", "10.0.0.2"]).getD 0 [] ∧
    (start_agent_commands "a" ["10.0.0.1", "10.0.0.2"]).getD 1 []
      = ["a" ++ "/bin/conductr-agent",
         "-Dconductr.agent.ip=" ++ (["10.0.0.1", "10.0.0.2"] : List String).getD 1 "",
         "--core-node",
         (["10.0.0.1", "10.0.0.2"] : List String).getD 1 "" ++ ":" ++
           String.mk (natReprL CONDUCTR_AKKA_REMOTING_PORT)] :=
  start_instances_flags "c" "a" ["10.0.0.1", "10.0.0.2"] 1 (by decide)

/-! ## `obtain_sandbox_image` (sandbox_run_jvm.py lines 214-322) -/

/-- Network-level failures a Bintray download can raise
(`requests.exceptions.ConnectionError` / `HTTPError`). -/
inductive NetErr where
  | connectionError
  | httpError
deriving DecidableEq

/-- Network operations performed against Bintray, recorded so that claims
about cache hits performing no network activity can be stated:
authentication (credential loading for the download session) and one
download per artifact kind. -/
inductive NetOp where
  | auth
  | download (bintray_package_name : String)
deriving DecidableEq

/-- A file of an extraction directory: its path components relative to the
directory root, and its byte content. -/
abbrev FsEntry := List String × String

/-- The environment `obtain_sandbox_image(image_dir, image_version)` runs
against: which cache files exist in `image_dir` and their contents, the
Bintray collaborator's responses for each kind, and
`shutil.unpack_archive`, modelled as a fixed deterministic function from
archive bytes to unpacked entries. -/
structure ImageEnv where
  image_dir : String
  image_version : String
  coreCacheExists : Bool
  agentCacheExists : Bool
  coreCacheContent : String
  agentCacheContent : String
  coreDownload : Except NetErr String
  agentDownload : Except NetErr String
  unpack : String → List FsEntry

/-- Modelled from the spec: `sandbox_common.resolve_conductr_info` (not
under src/) yields per kind a type tag used in error construction. -/
def core_info_type : String := "core"

/-- Modelled from the spec: the agent kind's type tag. -/
def agent_info_type : String := "agent"

/-- Modelled from the spec: the core kind's Bintray package name, used here
only as an opaque tag identifying which download was performed. -/
def core_bintray_package_name : String := "conductr"

/-- Modelled from the spec: the agent kind's Bintray package name. -/
def agent_bintray_package_name : String := "conductr-agent"

/-- Expected core cache path, `'{}/conductr-{}.tgz'.format(image_dir,
image_version)` (lines 255-256). -/
def core_cache_path (env : ImageEnv) : String :=
  env.image_dir ++ "/conductr-" ++ env.image_version ++ ".tgz"

/-- Expected agent cache path, `'{}/conductr-agent-{}.tgz'.format(image_dir,
image_version)` (lines 257-258). -/
def agent_cache_path (env : ImageEnv) : String :=
  env.image_dir ++ "/conductr-agent-" ++ env.image_version ++ ".tgz"

/-- Embedding of `resolve_binary_from_cache` (lines 280-290):
`os.path.exists` is the `path_exists` flag of the environment. -/
def resolve_binary_from_cache (path_exists : Bool) (binary_cache_path : String) :
    Option String :=
  if path_exists then some binary_cache_path else none

/-- How the two `except` clauses of `resolve_binaries` (lines 273-276) map a
network failure: `ConnectionError` becomes `BintrayUnreachableError`, and
`HTTPError` becomes `SandboxImageNotFoundError(core_info['type'],
image_version)` — note the source always passes `core_info['type']`,
whichever download failed. -/
def netErrToSandboxError (e : NetErr) (env : ImageEnv) : SandboxError :=
  match e with
  | .connectionError => .bintrayUnreachable "Bintray is unreachable."
  | .httpError => .sandboxImageNotFound core_info_type env.image_version

/-- Embedding of the nested `resolve_binaries()` (lines 236-278): each kind
is first resolved from the cache; if either is missing, credentials are
loaded (`.auth`) and each missing kind is downloaded in order (core first);
a download failure aborts (the agent download is not attempted after a core
failure).  Returns `((core_path, core_bytes), (agent_path, agent_bytes))`
together with the list of network operations performed. -/
def resolve_binaries (env : ImageEnv) :
    Except SandboxError ((String × String) × (String × String)) × List NetOp :=
  match resolve_binary_from_cache env.coreCacheExists (core_cache_path env),
        resolve_binary_from_cache env.agentCacheExists (agent_cache_path env) with
  | some core_path, some agent_path =>
    (.ok ((core_path, env.coreCacheContent), (agent_path, env.agentCacheContent)), [])
  | some core_path, none =>
    (match env.agentDownload with
     | .error e => .error (netErrToSandboxError e env)
     | .ok agent_content =>
       .ok ((core_path, env.coreCacheContent), (agent_cache_path env, agent_content)),
     [.auth, .download agent_bintray_package_name])
  | none, some agent_path =>
    (match env.coreDownload with
     | .error e => .error (netErrToSandboxError e env)
     | .ok core_content =>
       .ok ((core_cache_path env, core_content), (agent_path, env.agentCacheContent)),
     [.auth, .download core_bintray_package_name])
  | none, none =>
    match env.coreDownload with
    | .error e =>
      (.error (netErrToSandboxError e env), [.auth, .download core_bintray_package_name])
    | .ok core_content =>
      (match env.agentDownload with
       | .error e => .error (netErrToSandboxError e env)
       | .ok agent_content =>
         .ok ((core_cache_path env, core_content), (agent_cache_path env, agent_content)),
       [.auth, .download core_bintray_package_name, .download agent_bintray_package_name])

/-- Basename of the archive, `os.path.splitext(os.path.basename(path))[0]`
(line 308): strip everything up to the last `/`, then strip the last
dot-extension.  (Python's special case for names starting with a dot is
not modelled; archive filenames here never start with a dot.) -/
def os_path_basename (p : String) : String :=
  String.mk ((p.toList.reverse.takeWhile (fun c => c != '/')).reverse)

/-- Root part of `os.path.splitext`: drop the last `.` and what follows. -/
def splitext_root (cs : List Char) : List Char :=
  if cs.contains '.' then ((cs.reverse.dropWhile (fun c => c != '.')).drop 1).reverse else cs

/-- The name of the nested top-level directory `extract_binary` expects
inside the archive: the archive's base filename without its extension. -/
def archive_basename (path : String) : String :=
  String.mk (splitext_root (os_path_basename path).toList)

/-- Embedding of the nested `extract_binary(path, conductr_info)` (lines
292-313).  The extraction directory's prior contents are a parameter and
are discarded up front (`if os.path.exists: shutil.rmtree` then
`os.makedirs(mode=0o700)`, so the directory starts empty whatever
`prior_dir_contents` was); the archive is unpacked into the empty
directory; then every entry under the top-level directory named after the
archive's base filename is moved up one level and that directory removed.
If the archive contains no such directory (its internal top-level folder
has another name), `os.listdir(extraction_subdir)` raises
`FileNotFoundError`.  (Move collisions with same-named pre-existing
top-level entries and `os.rmdir` of a non-empty directory are not
modelled; no claim depends on them.) -/
def extract_binary (prior_dir_contents : List FsEntry) (unpack : String → List FsEntry)
    (path : String) (archive_content : String) : Except SandboxError (List FsEntry) :=
  match prior_dir_contents with
  | _ =>
    if (unpack archive_content).any (fun e =>
        decide (2 ≤ e.1.length) && (e.1.headD "" == archive_basename path)) then
      .ok ((unpack archive_content).map (fun e =>
        if e.1.headD "" == archive_basename path then (e.1.tail, e.2) else e))
    else
      .error (.fileNotFoundError (archive_basename path))

/-- Embedding of `obtain_sandbox_image(image_dir, image_version)` (lines
315-322): resolve both binaries, then extract each into its extraction
directory (whose prior contents are passed explicitly).  Returns the two
extracted directory contents and the network operations performed. -/
def obtain_sandbox_image (env : ImageEnv)
    (prior_core_dir prior_agent_dir : List FsEntry) :
    Except SandboxError (List FsEntry × List FsEntry) × List NetOp :=
  match resolve_binaries env with
  | (.error e, ops) => (.error e, ops)
  | (.ok ((core_path, core_content), (agent_path, agent_content)), ops) =>
    match extract_binary prior_core_dir env.unpack core_path core_content with
    | .error e => (.error e, ops)
    | .ok core_extracted_dir =>
      match extract_binary prior_agent_dir env.unpack agent_path agent_content with
      | .error e => (.error e, ops)
      | .ok agent_extracted_dir => (.ok (core_extracted_dir, agent_extracted_dir), ops)

theorem extract_binary_ignores_prior (p q : List FsEntry) (unpack : String → List FsEntry)
    (path content : String) :
    extract_binary p unpack path content = extract_binary q unpack path content := rfl

/-- C6: when both the core and agent archives already exist at their
expected cache paths in `image_dir`, `obtain_sandbox_image` performs zero
network operations (no authentication, no download), and a second call —
whatever extraction-directory contents the first call left behind —
produces the identical result (byte-identical extracted directory
contents), also with zero network operations. -/
theorem obtain_sandbox_image_idempotent (env : ImageEnv)
    (p1c p1a p2c p2a : List FsEntry)
    (hc : env.coreCacheExists = true) (ha : env.agentCacheExists = true) :
    (obtain_sandbox_image env p1c p1a).2 = [] ∧
    (obtain_sandbox_image env p2c p2a).1 = (obtain_sandbox_image env p1c p1a).1 ∧
    (obtain_sandbox_image env p2c p2a).2 = [] := by
  have hsame : obtain_sandbox_image env p2c p2a = obtain_sandbox_image env p1c p1a := rfl
  have hres : resolve_binaries env =
      (.ok ((core_cache_path env, env.coreCacheContent),
            (agent_cache_path env, env.agentCacheContent)), []) := by
    simp [resolve_binaries, resolve_binary_from_cache, hc, ha]
  have hops : (obtain_sandbox_image env p1c p1a).2 = [] := by
    simp only [obtain_sandbox_image, hres]
    cases extract_binary p1c env.unpack (core_cache_path env) env.coreCacheContent with
    | error e => rfl
    | ok core_extracted_dir =>
      cases extract_binary p1a env.unpack (agent_cache_path env) env.agentCacheContent with
      | error e => rfl
      | ok agent_extracted_dir => rfl
  exact ⟨hops, by rw [hsame], by rw [hsame]; exact hops⟩

/-- C6 witness environment: both kinds cached, version 2.0.0. -/
def sampleCachedEnv : ImageEnv :=
  ⟨"/img", "2.0.0", true, true, "corebytes", "agentbytes",
   .ok "corebytes", .ok "agentbytes",
   fun s => [(["conductr-2.0.0", "bin"], s)]⟩

/-- C6 witness: with both archives cached, the first call performs no
network operation and a repeat call with the first call's dirty extraction
directories returns the identical result. -/
theorem obtain_sandbox_image_idempotent_witness :
    (obtain_sandbox_image sampleCachedEnv [] []).2 = [] ∧
    (obtain_sandbox_image sampleCachedEnv [(["old"], "junk")] [(["old"], "junk")]).1
      = (obtain_sandbox_image sampleCachedEnv [] []).1 ∧
    (obtain_sandbox_image sampleCachedEnv [(["old"], "junk")] [(["old"], "junk")]).2 = [] :=
  obtain_sandbox_image_idempotent sampleCachedEnv [] [] [(["old"], "junk")] [(["old"], "junk")]
    rfl rfl

/-- The network failure, if any, that the `resolve_binaries` control flow
runs into: when some kind is uncached, the core download's error if the
core kind had to be downloaded and failed, else the agent download's error
if the agent kind had to be downloaded and failed (the agent download is
only attempted when the core kind resolved). -/
def attempted_failure (env : ImageEnv) : Option NetErr :=
  match env.coreCacheExists, env.agentCacheExists with
  | true, true => none
  | true, false =>
    match env.agentDownload with
    | .error e => some e
    | .ok _ => none
  | false, true =>
    match env.coreDownload with
    | .error e => some e
    | .ok _ => none
  | false, false =>
    match env.coreDownload with
    | .error e => some e
    | .ok _ =>
      match env.agentDownload with
      | .error e => some e
      | .ok _ => none

/-- C7 (amended): `resolve_binaries` fails exactly when an attempted
download fails, a connection-level failure is mapped to the unreachable
error, and an HTTP failure is mapped to
`SandboxImageNotFoundError(core kind, image_version)` — the error always
carries the CORE kind tag regardless of which kind's download failed, so
callers cannot distinguish the failing artifact kind from the error. -/
theorem resolve_binaries_error_classification (env : ImageEnv) (e : SandboxError) :
    (resolve_binaries env).1 = .error e ↔
    ∃ ne, attempted_failure env = some ne ∧ e = netErrToSandboxError ne env := by
  cases hc : env.coreCacheExists <;> cases ha : env.agentCacheExists <;>
    cases hcd : env.coreDownload <;> cases had : env.agentDownload <;>
      simp [resolve_binaries, resolve_binary_from_cache, attempted_failure,
        hc, ha, hcd, had, eq_comm]

/-- C7 counterexample: the core archive is cached and the agent download
fails with an HTTP error (the remote 404 case); the raised error carries
the core kind tag `"core"` and the version — not the agent kind whose
download actually failed. -/
def agentMissingEnv : ImageEnv :=
  ⟨"/img", "2.0.0", true, false, "corebytes", "",
   .ok "corebytes", .error .httpError, fun _ => []⟩

/-- C7 counterexample theorem: the failing artifact kind is the agent, yet
the error names the core kind, so the error does not identify the failing
kind. -/
theorem resolve_binaries_agent_http_names_core :
    (resolve_binaries agentMissingEnv).1
      = .error (.sandboxImageNotFound "core" "2.0.0") ∧
    core_info_type ≠ agent_info_type := ⟨rfl, by decide⟩

/-- C8 (amended): extraction discards the prior extraction-directory
contents entirely, and when the archive does contain entries under a
top-level directory named after the archive's base filename, extraction
succeeds with exactly those entries moved up one level; provided the
archive does not nest another same-named directory directly inside, no
entry under an archive-basename subdirectory remains.  (When the archive's
internal top-level folder has a different name, extraction instead fails —
see the counterexample.) -/
theorem extract_binary_flattens (prior : List FsEntry) (unpack : String → List FsEntry)
    (path content : String)
    (hsub : (unpack content).any (fun e =>
        decide (2 ≤ e.1.length) && (e.1.headD "" == archive_basename path)) = true)
    (hnonest : ∀ e ∈ unpack content,
        e.1.headD "" = archive_basename path →
        e.1.tail.headD "" ≠ archive_basename path) :
    extract_binary prior unpack path content
      = .ok ((unpack content).map (fun e =>
          if e.1.headD "" == archive_basename path then (e.1.tail, e.2) else e)) ∧
    extract_binary prior unpack path content = extract_binary [] unpack path content ∧
    ∀ e ∈ (unpack content).map (fun e =>
          if e.1.headD "" == archive_basename path then (e.1.tail, e.2) else e),
      ¬(2 ≤ e.1.length ∧ e.1.headD "" = archive_basename path) := by
  refine ⟨?_, rfl, ?_⟩
  · cases prior <;> simp only [extract_binary, hsub, if_true]
  · intro e he
    obtain ⟨e', he', hfe⟩ := List.mem_map.mp he
    rintro ⟨hlen, hhead⟩
    by_cases hb : (e'.1.headD "" == archive_basename path) = true
    · rw [if_pos hb] at hfe
      have : e'.1.tail.headD "" = archive_basename path := by
        rw [← hfe] at hhead
        exact hhead
      exact hnonest e' he' (by simpa using hb) this
    · rw [if_neg hb] at hfe
      rw [← hfe] at hhead
      exact hb (by rw [beq_iff_eq]; simpa using hhead)

/-- C8 witness: an archive of two files under `conductr-2.0.0/`, extracted
from path `/img/conductr-2.0.0.tgz`: extraction succeeds, both entries are
moved to top level, and no archive-basename subdirectory remains. -/
theorem extract_binary_flattens_witness :
    extract_binary [(["stale"], "old")]
        (fun _ => [(["conductr-2.0.0", "bin"], "b"), (["conductr-2.0.0", "conf"], "c")])
        "/img/conductr-2.0.0.tgz" "bytes"
      = .ok (((fun _ => [(["conductr-2.0.0", "bin"], "b"), (["conductr-2.0.0", "conf"], "c")])
          ("bytes" : String)).map (fun e =>
          if e.1.headD "" == archive_basename "/img/conductr-2.0.0.tgz"
          then (e.1.tail, e.2) else e)) ∧
    extract_binary [(["stale"], "old")]
        (fun _ => [(["conductr-2.0.0", "bin"], "b"), (["conductr-2.0.0", "conf"], "c")])
        "/img/conductr-2.0.0.tgz" "bytes"
      = extract_binary []
          (fun _ => [(["conductr-2.0.0", "bin"], "b"), (["conductr-2.0.0", "conf"], "c")])
          "/img/conductr-2.0.0.tgz" "bytes" ∧
    ∀ e ∈ (((fun _ => [(["conductr-2.0.0", "bin"], "b"), (["conductr-2.0.0", "conf"], "c")])
          ("bytes" : String)).map (fun e =>
          if e.1.headD "" == archive_basename "/img/conductr-2.0.0.tgz"
          then (e.1.tail, e.2) else e)),
      ¬(2 ≤ e.1.length ∧ e.1.headD "" = archive_basename "/img/conductr-2.0.0.tgz") :=
  extract_binary_flattens [(["stale"], "old")]
    (fun _ => [(["conductr-2.0.0", "bin"], "b"), (["conductr-2.0.0", "conf"], "c")])
    "/img/conductr-2.0.0.tgz" "bytes" (by decide) (by decide)

/-- C8 counterexample: an archive whose internal top-level folder is named
`other` rather than the archive basename `conductr-2.0.0`: extraction does
not yield a flattened directory — it fails with `FileNotFoundError`
(`os.listdir` on the missing `conductr-2.0.0` subdirectory). -/
theorem extract_binary_other_top_dir :
    extract_binary [] (fun _ => [(["other", "f"], "data")]) "/img/conductr-2.0.0.tgz" "bytes"
      = .error (.fileNotFoundError "conductr-2.0.0") ∧
    ∀ result, extract_binary [] (fun _ => [(["other", "f"], "data")])
        "/img/conductr-2.0.0.tgz" "bytes" ≠ .ok result := by
  refine ⟨rfl, fun result h => ?_⟩
  rw [show extract_binary [] (fun _ => [(["other", "f"], "data")])
      "/img/conductr-2.0.0.tgz" "bytes" = .error (.fileNotFoundError "conductr-2.0.0")
    from rfl] at h
  exact Except.noConfusion h

/-! ## `validate_jvm_support` (sandbox_run_jvm.py lines 139-169) -/

/-- Model of Python's `str.splitlines` restricted to `'\n'` separators (the
probe output never contains the other Unicode line boundaries): the empty
string yields no lines, and a trailing newline produces no final empty
line. -/
def splitlines (cs : List Char) : List (List Char) :=
  match cs with
  | [] => []
  | _ =>
    if cs.getLast? = some '\n' then (pySplit '\n' cs).dropLast else pySplit '\n' cs

/-- Oracle JVM vendor identifier (line 24). -/
def SUPPORTED_JVM_VENDOR : String := "java"

/-- Minimum supported JVM version pair (line 25). -/
def SUPPORTED_JVM_VERSION : Int × Int := (1, 8)

/-- Python's tuple comparison `(a, b) >= (c, d)`: lexicographic. -/
def pyPairGe (p q : Int × Int) : Bool :=
  decide (q.1 < p.1) || (p.1 == q.1 && decide (q.2 ≤ p.2))

set_option linter.unusedVariables false in
/-- Embedding of `validate_jvm_support()` (lines 139-169).  The JVM probe
`subprocess.getoutput('java -version')` is modelled by its observable
behaviour: it returns the command's captured output and swallows the exit
status (`getoutput` catches `CalledProcessError` internally and returns
`ex.output`), so the probe's exit status reaches this function only as the
unused `returncode` parameter, and the source's `except CalledProcessError`
clause (lines 168-169) is unreachable dead code. -/
def validate_jvm_support (returncode : Nat) (raw_output : String) : Except SandboxError Unit :=
  match splitlines raw_output.toList with
  | [] => .error (.javaVersionParseError raw_output)
  | first_line :: _ =>
    if (pySplit ' ' first_line).length == 3 then
      if (pySplit ' ' first_line).headD [] == SUPPORTED_JVM_VENDOR.toList then
        if 2 ≤ (pySplit '.' (((pySplit ' ' first_line).getD 2 []).filter
            (fun c => c != '"'))).length then
          match pyIntL ((pySplit '.' (((pySplit ' ' first_line).getD 2 []).filter
                  (fun c => c != '"'))).headD []),
                pyIntL ((pySplit '.' (((pySplit ' ' first_line).getD 2 []).filter
                  (fun c => c != '"'))).getD 1 []) with
          | some jvm_version_major, some jvm_version_minor =>
            if pyPairGe (jvm_version_major, jvm_version_minor) SUPPORTED_JVM_VERSION then
              .ok ()
            else
              .error (.javaUnsupportedVersionError
                (String.mk (((pySplit ' ' first_line).getD 2 []).filter (fun c => c != '"'))))
          | _, _ => .error .valueError
        else .error (.javaVersionParseError raw_output)
      else .error (.javaUnsupportedVendorError (String.mk ((pySplit ' ' first_line).headD [])))
    else .error (.javaVersionParseError raw_output)

/-- C9 (code bug in the source): the result of `validate_jvm_support` does
not depend on the probe command's exit status at all, it can never be
`JavaCallError` (the `except CalledProcessError` clause is dead because
`subprocess.getoutput` swallows the exit status), and in particular a
probe exiting with the nonzero status 1 whose output is a normal version
banner passes validation instead of raising `JavaCallError`. -/
theorem validate_jvm_support_ignores_exit_status :
    (∀ rc rc2 out, validate_jvm_support rc out = validate_jvm_support rc2 out) ∧
    (∀ rc out msg, validate_jvm_support rc out ≠ .error (.javaCallError msg)) ∧
    validate_jvm_support 1 "java version \"1.8.0_144\"" = .ok () := by
  refine ⟨fun _ _ _ => rfl, ?_, by rfl⟩
  intro rc out msg h
  unfold validate_jvm_support at h
  repeat' split at h
  all_goals exact absurd h (by simp)

/-! ## `SandboxRunResult` and the result assembly of `run` (lines 28-74) -/

/-- Embedding of the `SandboxRunResult` data (lines 28-40); `host` is a
string because the source computes it as `str(core_addrs[0])`. -/
structure SandboxRunResult where
  core_pids : List Nat
  core_addrs : List Nat
  agent_pids : List Nat
  agent_addrs : List Nat
  nr_of_proxy_instances : Nat
  host : String

/-- Embedding of `SandboxRunResult.__init__`: `self.host =
str(core_addrs[0])` indexes the first core address, raising `IndexError`
(modelled as `none`) when `core_addrs` is empty. -/
def mkSandboxRunResult (core_pids core_addrs agent_pids agent_addrs : List Nat)
    (nr_of_proxy_instances : Nat) : Option SandboxRunResult :=
  match core_addrs with
  | [] => none
  | addr0 :: rest =>
    some ⟨core_pids, addr0 :: rest, agent_pids, agent_addrs, nr_of_proxy_instances,
      String.mk (natReprL addr0)⟩

/-- Python list slicing `l[0:n]` with an `int` upper bound `n` (a negative
bound counts from the end), as used by `run` to slice `bind_addrs`. -/
def pySlice0 (l : List Nat) (n : Int) : List Nat :=
  if 0 ≤ n then l.take n.toNat else l.take (l.length - n.natAbs)

/-- The result-assembly tail of `run(args, features)` (lines 68-74): slice
the bind addresses for core (`bind_addrs[0:nr_of_core_instances]`) and
agent, then construct the `SandboxRunResult` with `NR_OF_PROXY_INSTANCE`
proxy instances. -/
def run_assemble (nr_of_core_instances nr_of_agent_instances : Int)
    (bind_addrs core_pids agent_pids : List Nat) : Option SandboxRunResult :=
  mkSandboxRunResult core_pids (pySlice0 bind_addrs nr_of_core_instances)
    agent_pids (pySlice0 bind_addrs nr_of_agent_instances) NR_OF_PROXY_INSTANCE

/-- C10: the parser accepts the instance expression `"0"` with core count
0; with core count 0 the core address slice `bind_addrs[0:0]` is empty, so
assembling the `SandboxRunResult` fails with an index error
(`str(core_addrs[0])` on an empty list) instead of returning a result. -/
theorem run_zero_cores_fails (v : String) (nr_of_agent_instances : Int)
    (bind_addrs core_pids agent_pids : List Nat) :
    instance_count v "0" = .ok (0, 0) ∧
    run_assemble 0 nr_of_agent_instances bind_addrs core_pids agent_pids = none := by
  refine ⟨rfl, ?_⟩
  simp [run_assemble, pySlice0, mkSandboxRunResult]
